import Mathlib

/-!
Shallow embedding of the autotest benchmark harness of this repository
(`src/autotest/`: `loader.py`, `comparator.py`, `repairer.py`, `runner.py`),
with theorems settling the frozen claims about it.

Modelling conventions:
* Python scalars in query-result rows are modelled by `Value`
  (`int`, `float`, `str`); Python floats are modelled exactly as rationals,
  so the tolerance arithmetic of `ResultComparator._rows_equal` is exact.
* `sorted(rows, key=str)` sorts rows by their Python string serialization,
  which is injective on rows of scalars, so it orders rows by a total linear
  order with no nontrivial ties.  We model it as sorting by a concrete total,
  transitive, antisymmetric order on rows (`RowLe`); none of the properties
  proved below depends on which total order is used.
* The filesystem touched by the Repairer is a map from path to optional
  content (`none` = file absent).
* The agent, the structural-judgment oracle, the repair-proposal oracle and
  the query-execution service are external collaborators; a run's interaction
  with them is modelled by an environment of response streams indexed by the
  per-case attempt number.
-/

namespace Autotest

/-- A scalar cell of a query-result row (Python: `int`, `float` or `str`
in `QueryResult.rows`).  Floats are modelled exactly as rationals. -/
inductive Value where
  | int (n : ℤ)
  | float (q : ℚ)
  | str (s : String)
  deriving DecidableEq

theorem charToNat_inj {c d : Char} (h : c.toNat = d.toNat) : c = d := by
  rcases c with ⟨⟨cv⟩, hc⟩
  rcases d with ⟨⟨dv⟩, hd⟩
  simp only [Char.toNat, UInt32.toNat] at h
  congr 2
  exact BitVec.eq_of_toNat_eq h

/-- Lexicographic comparison of character lists by code point (an executable
total order on strings, as used by Python's string comparison). -/
def charListLeB : List Char → List Char → Bool
  | [], _ => true
  | _ :: _, [] => false
  | c :: cs, d :: ds =>
    if c.toNat = d.toNat then charListLeB cs ds else decide (c.toNat < d.toNat)

/-- Total order on strings by code points. -/
def strLeB (a b : String) : Bool := charListLeB a.data b.data

theorem charListLeB_total : ∀ a b : List Char, charListLeB a b = true ∨ charListLeB b a = true
  | [], _ => Or.inl rfl
  | _ :: _, [] => Or.inr rfl
  | c :: cs, d :: ds => by
    by_cases hcd : c.toNat = d.toNat
    · have hdc : d.toNat = c.toNat := hcd.symm
      simp only [charListLeB, if_pos hcd, if_pos hdc]
      exact charListLeB_total cs ds
    · have hdc : ¬d.toNat = c.toNat := fun h => hcd h.symm
      simp only [charListLeB, if_neg hcd, if_neg hdc, decide_eq_true_eq]
      omega

theorem charListLeB_trans : ∀ {a b c : List Char},
    charListLeB a b = true → charListLeB b c = true → charListLeB a c = true
  | [], _, _, _, _ => rfl
  | _ :: _, [], _, h₁, _ => by simp [charListLeB] at h₁
  | _ :: _, _ :: _, [], _, h₂ => by simp [charListLeB] at h₂
  | a :: as, b :: bs, c :: cs, h₁, h₂ => by
    by_cases hab : a.toNat = b.toNat <;> by_cases hbc : b.toNat = c.toNat
    · have hac : a.toNat = c.toNat := hab.trans hbc
      simp only [charListLeB, if_pos hab, if_pos hbc, if_pos hac] at h₁ h₂ ⊢
      exact charListLeB_trans h₁ h₂
    · have hac : ¬a.toNat = c.toNat := fun h => hbc (hab.symm.trans h)
      simp only [charListLeB, if_pos hab, if_neg hbc, if_neg hac,
        decide_eq_true_eq] at h₁ h₂ ⊢
      omega
    · have hac : ¬a.toNat = c.toNat := fun h => hab (h.trans hbc.symm)
      simp only [charListLeB, if_neg hab, if_pos hbc, if_neg hac,
        decide_eq_true_eq] at h₁ h₂ ⊢
      omega
    · simp only [charListLeB, if_neg hab, if_neg hbc, decide_eq_true_eq] at h₁ h₂
      have hac : ¬a.toNat = c.toNat := by omega
      simp only [charListLeB, if_neg hac, decide_eq_true_eq]
      omega

theorem charListLeB_antisymm : ∀ {a b : List Char},
    charListLeB a b = true → charListLeB b a = true → a = b
  | [], [], _, _ => rfl
  | [], _ :: _, _, h₂ => by simp [charListLeB] at h₂
  | _ :: _, [], h₁, _ => by simp [charListLeB] at h₁
  | a :: as, b :: bs, h₁, h₂ => by
    by_cases hab : a.toNat = b.toNat
    · have hba : b.toNat = a.toNat := hab.symm
      simp only [charListLeB, if_pos hab, if_pos hba] at h₁ h₂
      rw [charToNat_inj hab, charListLeB_antisymm h₁ h₂]
    · have hba : ¬b.toNat = a.toNat := fun h => hab h.symm
      simp only [charListLeB, if_neg hab, if_neg hba, decide_eq_true_eq] at h₁ h₂
      omega

theorem strLeB_total (a b : String) : strLeB a b = true ∨ strLeB b a = true :=
  charListLeB_total a.data b.data

theorem strLeB_trans {a b c : String} (h₁ : strLeB a b = true) (h₂ : strLeB b c = true) :
    strLeB a c = true :=
  charListLeB_trans h₁ h₂

theorem strLeB_antisymm {a b : String} (h₁ : strLeB a b = true) (h₂ : strLeB b a = true) :
    a = b :=
  String.ext (charListLeB_antisymm h₁ h₂)

/-- Total order on scalar cells: by constructor, then by payload.  This is the
order induced by Python's (injective) string serialization up to renaming of
the serialized forms; only totality, transitivity, antisymmetry and
decidability are ever used. -/
def Value.leB : Value → Value → Bool
  | .int a, .int b => decide (a ≤ b)
  | .int _, .float _ => true
  | .int _, .str _ => true
  | .float _, .int _ => false
  | .float a, .float b => decide (a ≤ b)
  | .float _, .str _ => true
  | .str _, .int _ => false
  | .str _, .float _ => false
  | .str a, .str b => strLeB a b

/-- Lexicographic order on rows, modelling the total order that
`sorted(rows, key=str)` uses (comparison of the serialized rows). -/
def rowLeB : List Value → List Value → Bool
  | [], _ => true
  | _ :: _, [] => false
  | a :: as, b :: bs => if a = b then rowLeB as bs else Value.leB a b

/-- The row order as a relation, for use with `List.insertionSort`. -/
def RowLe (a b : List Value) : Prop := rowLeB a b = true

instance : DecidableRel RowLe := fun _ _ => inferInstanceAs (Decidable (_ = true))

theorem Value.leB_total (a b : Value) : a.leB b = true ∨ b.leB a = true := by
  cases a <;> cases b <;> simp [Value.leB] <;>
    first
      | apply le_total
      | apply strLeB_total

theorem Value.leB_trans {a b c : Value} (h₁ : a.leB b = true) (h₂ : b.leB c = true) :
    a.leB c = true := by
  cases a <;> cases b <;> cases c <;> simp [Value.leB] at * <;>
    first
      | exact le_trans h₁ h₂
      | exact strLeB_trans h₁ h₂

theorem Value.leB_antisymm {a b : Value} (h₁ : a.leB b = true) (h₂ : b.leB a = true) :
    a = b := by
  cases a <;> cases b <;> simp [Value.leB] at * <;>
    first
      | exact le_antisymm h₁ h₂
      | exact strLeB_antisymm h₁ h₂

theorem rowLeB_total : ∀ a b : List Value, rowLeB a b = true ∨ rowLeB b a = true
  | [], _ => Or.inl rfl
  | _ :: _, [] => Or.inr rfl
  | a :: as, b :: bs => by
    by_cases hab : a = b
    · subst hab
      simpa [rowLeB] using rowLeB_total as bs
    · have hba : ¬b = a := fun h => hab h.symm
      simpa [rowLeB, hab, hba] using Value.leB_total a b

theorem rowLeB_trans : ∀ {a b c : List Value},
    rowLeB a b = true → rowLeB b c = true → rowLeB a c = true
  | [], _, _, _, _ => rfl
  | _ :: _, [], _, h₁, _ => by simp [rowLeB] at h₁
  | _ :: _, _ :: _, [], _, h₂ => by simp [rowLeB] at h₂
  | a :: as, b :: bs, c :: cs, h₁, h₂ => by
    by_cases hab : a = b <;> by_cases hbc : b = c
    · subst hab; subst hbc
      simp only [rowLeB, if_pos rfl] at *
      exact rowLeB_trans h₁ h₂
    · subst hab
      simpa [rowLeB, hbc] using h₂
    · subst hbc
      simpa [rowLeB, hab] using h₁
    · simp only [rowLeB, if_neg hab, if_neg hbc] at h₁ h₂
      by_cases hac : a = c
      · subst hac
        exact absurd (Value.leB_antisymm h₁ h₂) hab
      · simpa [rowLeB, hac] using Value.leB_trans h₁ h₂

theorem rowLeB_antisymm : ∀ {a b : List Value},
    rowLeB a b = true → rowLeB b a = true → a = b
  | [], [], _, _ => rfl
  | [], _ :: _, _, h₂ => by simp [rowLeB] at h₂
  | _ :: _, [], h₁, _ => by simp [rowLeB] at h₁
  | a :: as, b :: bs, h₁, h₂ => by
    by_cases hab : a = b
    · subst hab
      simp only [rowLeB, if_pos rfl] at h₁ h₂
      rw [rowLeB_antisymm h₁ h₂]
    · have hba : ¬b = a := fun h => hab h.symm
      simp only [rowLeB, if_neg hab, if_neg hba] at h₁ h₂
      exact absurd (Value.leB_antisymm h₁ h₂) hab

instance : IsTotal (List Value) RowLe := ⟨fun a b => rowLeB_total a b⟩

instance : IsTrans (List Value) RowLe := ⟨fun _ _ _ h₁ h₂ => rowLeB_trans h₁ h₂⟩

instance : IsAntisymm (List Value) RowLe := ⟨fun _ _ h₁ h₂ => rowLeB_antisymm h₁ h₂⟩

/-! ## `comparator.py` — StructuralComparator and ResultComparator -/

/-- `CompareResult` dataclass (structural comparison outcome).
The source field `match` is a Lean keyword, so it is called `matched` here. -/
structure CompareResult where
  matched : Bool
  differences : List String := []
  deriving DecidableEq

/-- The parsed JSON object returned by the oracle for a structural judgment,
as consumed by `StructuralComparator.compare`: `result.get("match", False)` /
`result.get("differences", [])`.  A `none` field models an absent key
(`dict.get` returning the default). -/
structure StructuralResponse where
  matchField : Option Bool
  differencesField : Option (List String)
  deriving DecidableEq

/-- `StructuralComparator.compare`, lines 46–64 of `comparator.py`, given the
parsed oracle response: builds the `CompareResult` with `dict.get` defaults.
(JSON-parse failures in `LLMBackend.generate_json` raise before this point;
this function receives any successfully parsed object.) -/
def StructuralComparator.compare (response : StructuralResponse) : CompareResult :=
  { matched := response.matchField.getD false
    differences := response.differencesField.getD [] }

/-- `QueryResult` dataclass of `query_service.py`. -/
structure QueryResult where
  columns : List String
  rows : List (List Value)
  error : Option String := none

/-- `QueryResult.has_error` property: `self.error is not None`. -/
def QueryResult.has_error (r : QueryResult) : Bool := r.error.isSome

/-- `ResultCompareResult` dataclass.  The source field `match` is a Lean
keyword, so it is called `matched` here. -/
structure ResultCompareResult where
  matched : Bool
  schema_diff : List String := []
  row_mismatches : Nat := 0
  sample_diffs : List String := []
  deriving DecidableEq

/-- Serialization of a scalar used inside diagnostic messages (modelling the
Python `str`/`repr` of the cell; the exact rendering is never relied upon). -/
def valueRepr : Value → String
  | .int n => toString n
  | .float q => toString q
  | .str s => "'" ++ s ++ "'"

/-- Serialization of a row used inside diagnostic messages. -/
def rowRepr (r : List Value) : String :=
  "[" ++ String.intercalate ", " (r.map valueRepr) ++ "]"

/-- Serialization of a list of strings used inside diagnostic messages. -/
def strListRepr (l : List String) : String :=
  "[" ++ String.intercalate ", " (l.map fun s => "'" ++ s ++ "'") ++ "]"

/-- `isinstance(x, (int, float))` on a cell. -/
def Value.isNum : Value → Bool
  | .int _ => true
  | .float _ => true
  | .str _ => false

/-- The numeric value of a numeric cell (Python arithmetic on the cell). -/
def Value.num : Value → ℚ
  | .int n => (n : ℚ)
  | .float q => q
  | .str _ => 0

/-- The `1e-9` near-zero guard of `_rows_equal`. -/
def nearZeroEps : ℚ := mkRat 1 1000000000

/-- One iteration of the cell loop in `ResultComparator._rows_equal`
(lines 130–137 of `comparator.py`): numeric pairs compare by relative
tolerance with the near-zero guard, all other pairs by exact equality. -/
def cellOk (tol : ℚ) (a b : Value) : Bool :=
  if a.isNum && b.isNum then
    if |a.num| < nearZeroEps ∧ |b.num| < nearZeroEps then
      true
    else
      !decide (|a.num - b.num| / max |a.num| |b.num| > tol)
  else
    decide (a = b)

/-- `ResultComparator._rows_equal` (lines 127–138 of `comparator.py`):
length check, then the cell loop over `zip(row_a, row_b)`. -/
def rowsEqual (tol : ℚ) (ra rb : List Value) : Bool :=
  if ra.length = rb.length then
    (ra.zip rb).all fun p => cellOk tol p.1 p.2
  else
    false

/-- Tail of the row loop once the expected side is exhausted: every remaining
generated row at index `i ≥ len(exp_rows)` counts as one mismatch with an
unconditional `"missing in expected"` diff. -/
def missingExpectedRows : Nat → List (List Value) → Nat → List String →
    Nat × List String
  | _, [], mis, diffs => (mis, diffs)
  | i, _ :: gs, mis, diffs =>
    missingExpectedRows (i + 1) gs (mis + 1)
      (diffs ++ ["Row " ++ toString i ++ ": missing in expected"])

/-- Tail of the row loop once the generated side is exhausted: every remaining
expected row counts as one mismatch with an unconditional
`"missing in generated"` diff. -/
def missingGeneratedRows : Nat → List (List Value) → Nat → List String →
    Nat × List String
  | _, [], mis, diffs => (mis, diffs)
  | i, _ :: es, mis, diffs =>
    missingGeneratedRows (i + 1) es (mis + 1)
      (diffs ++ ["Row " ++ toString i ++ ": missing in generated"])

/-- The row loop of `ResultComparator.compare` (lines 104–119 of
`comparator.py`): walks both sorted row lists by position `i`, counting
mismatches and collecting diagnostic strings.  A row index present on only
one side counts as a mismatch and appends its diff unconditionally; a paired
mismatch appends its diff only while fewer than 5 diffs were collected. -/
def compareRows (tol : ℚ) : Nat → List (List Value) → List (List Value) →
    Nat → List String → Nat × List String
  | i, [], gs, mis, diffs => missingExpectedRows i gs mis diffs
  | i, es@(_ :: _), [], mis, diffs => missingGeneratedRows i es mis diffs
  | i, e :: es, g :: gs, mis, diffs =>
    if rowsEqual tol e g then
      compareRows tol (i + 1) es gs mis diffs
    else
      compareRows tol (i + 1) es gs (mis + 1)
        (if diffs.length < 5 then
          diffs ++ ["Row " ++ toString i ++ ": expected " ++ rowRepr e ++
            ", got " ++ rowRepr g]
        else diffs)

/-- `sorted(...)` on column names (order-insensitive schema check). -/
def sortCols (cols : List String) : List String :=
  List.insertionSort (fun a b : String => strLeB a b = true) cols

/-- `sorted(rows, key=str)`: sort rows by the total row order. -/
def sortRows (rows : List (List Value)) : List (List Value) :=
  List.insertionSort RowLe rows

/-- `ResultComparator.compare` (lines 79–125 of `comparator.py`), with the
comparator's `tolerance` passed explicitly (constructor default `0.0001`). -/
def ResultComparator.compare (tol : ℚ) (expected generated : QueryResult) :
    ResultCompareResult :=
  if expected.has_error then
    { matched := false
      schema_diff := ["Expected SQL error: " ++ expected.error.getD ""] }
  else if generated.has_error then
    { matched := false
      schema_diff := ["Generated SQL error: " ++ generated.error.getD ""] }
  else
    let exp_cols := sortCols expected.columns
    let gen_cols := sortCols generated.columns
    if exp_cols ≠ gen_cols then
      { matched := false
        schema_diff := ["Expected columns: " ++ strListRepr exp_cols ++
          ", Got: " ++ strListRepr gen_cols] }
    else
      let exp_rows := sortRows expected.rows
      let gen_rows := sortRows generated.rows
      let md := compareRows tol 0 exp_rows gen_rows 0 []
      { matched := md.1 == 0
        row_mismatches := md.1
        sample_diffs := md.2 }

/-- The comparator's default tolerance `0.0001`. -/
def defaultTolerance : ℚ := mkRat 1 10000

/-! ## `loader.py` — BenchmarkLoader -/

/-- `BenchmarkCase` dataclass. -/
structure BenchmarkCase where
  id : String
  question : String
  expected_sql : String
  tags : List String := []
  deriving DecidableEq

/-- One record of the parsed YAML benchmark source (`data["cases"]`):
mandatory `id`, `question`, `expected_sql`; `tags` via `c.get("tags", [])`
(`none` models an absent key). -/
structure CaseRecord where
  id : String
  question : String
  expected_sql : String
  tagsField : Option (List String) := none
  deriving DecidableEq

/-- Construction of a `BenchmarkCase` from a record
(lines 26–34 of `loader.py`): `expected_sql` is stripped, `tags` defaults
to the empty list. -/
def buildCase (r : CaseRecord) : BenchmarkCase :=
  { id := r.id
    question := r.question
    expected_sql := r.expected_sql.trim
    tags := r.tagsField.getD [] }

/-- Python truthiness of the optional `case_id` argument
(`if case_id:`): absent or empty string is falsy. -/
def truthyStr : Option String → Bool
  | none => false
  | some s => !(s == "")

/-- Python truthiness of the optional `tags` argument
(`if tags:`): absent or empty list is falsy. -/
def truthyTags : Option (List String) → Bool
  | none => false
  | some l => !l.isEmpty

/-- `set(tags) & set(c.tags)` is non-empty. -/
def tagsIntersect (tags ctags : List String) : Bool :=
  tags.any fun t => ctags.contains t

/-- `BenchmarkLoader.load` (lines 18–41 of `loader.py`) after YAML parsing:
builds the cases in source order, then applies the `case_id` filter and the
`tags` filter.  Note both `if` filters apply when both arguments are truthy
(the source has two independent `if` statements, not `if`/`elif`). -/
def BenchmarkLoader.load (tags : Option (List String)) (case_id : Option String)
    (records : List CaseRecord) : List BenchmarkCase :=
  let cases := records.map buildCase
  let cases :=
    if truthyStr case_id then cases.filter (fun c => c.id == case_id.getD "") else cases
  let cases :=
    if truthyTags tags then
      cases.filter (fun c => tagsIntersect (tags.getD []) c.tags)
    else cases
  cases

/-! ## `repairer.py` — Repairer -/

/-- The filesystem state seen by the Repairer: path ↦ content,
`none` = file absent. -/
def Fs : Type := String → Option String

/-- Write (or delete, with `none`) one path. -/
def Fs.set (fs : Fs) (path : String) (content : Option String) : Fs :=
  fun p => if p = path then content else fs p

/-- `RepairAction` dataclass.  `original` models `_original : Optional[str]`:
a single `None` marker means both "never populated by `apply`" and
"file did not exist at apply time" — exactly as in the source. -/
structure RepairAction where
  type : String
  file : String
  content : String
  original : Option String := none
  deriving DecidableEq

/-- `RepairPlan` dataclass. -/
structure RepairPlan where
  actions : List RepairAction
  reasoning : String
  deriving DecidableEq

/-- One parsed `{type, file, content}` triple from the repair oracle's
response; `Repairer.propose` turns each into a `RepairAction` with
`_original` left at its default `None`. -/
structure ProposedAction where
  type : String
  file : String
  content : String
  deriving DecidableEq

/-- `RepairAction(**a)` in `Repairer.propose`: `_original` starts `None`. -/
def ProposedAction.toAction (p : ProposedAction) : RepairAction :=
  { type := p.type, file := p.file, content := p.content, original := none }

/-- `Repairer.apply` (lines 120–131 of `repairer.py`): for each action in
order, record the current on-disk content into `original` (`none` if the
file does not exist), then overwrite the file with the action's content.
Returns the mutated actions (the plan is mutated in place in the source)
together with the new filesystem. -/
def applyActions : List RepairAction → Fs → List RepairAction × Fs
  | [], fs => ([], fs)
  | a :: rest, fs =>
    let a' := { a with original := fs a.file }
    let fs' := fs.set a.file (some a.content)
    let (rest', fs'') := applyActions rest fs'
    (a' :: rest', fs'')

/-- `Repairer.apply` on a plan. -/
def Repairer.apply (plan : RepairPlan) (fs : Fs) : RepairPlan × Fs :=
  let (actions', fs') := applyActions plan.actions fs
  ({ plan with actions := actions' }, fs')

/-- One action of `Repairer.revert` (lines 133–139 of `repairer.py`):
restore `original` if it is not `None`, else delete the file if it exists. -/
def revertAction (a : RepairAction) (fs : Fs) : Fs :=
  match a.original with
  | some o => fs.set a.file (some o)
  | none => if (fs a.file).isSome then fs.set a.file none else fs

/-- `Repairer.revert`: the actions are processed in plan order. -/
def revertActions : List RepairAction → Fs → Fs
  | [], fs => fs
  | a :: rest, fs => revertActions rest (revertAction a fs)

/-- `Repairer.revert` on a plan. -/
def Repairer.revert (plan : RepairPlan) (fs : Fs) : Fs :=
  revertActions plan.actions fs

/-! ## `runner.py` — Runner -/

/-- The agent's response to `ask(question)`: `{type: "sql", sql: ...}` or any
other response with an optional `message` (`response.get("message", ...)`). -/
inductive AgentResponse where
  | sql (s : String)
  | other (message : Option String)
  deriving DecidableEq

/-- The configuration arguments of `Runner.__init__` (lines 36–58 of
`runner.py`).  `_llm_calls` is the runner's mutable counter, initialized to 0
at construction; it is threaded explicitly through the functions below. -/
structure RunnerConfig where
  max_retries : Nat := 3
  max_llm_calls : Nat := 50
  no_repair : Bool := false
  dry_run : Bool := false

/-- Deterministic model of one case's external collaborators, indexed by the
per-case attempt number (0 = the initial Generate phase, `k + 1` = the re-run
after the `k`-th repair attempt):

* `ask k` — the agent's response to `agent.ask(case.question)`;
* `structural k` — the structural oracle's judgment on the SQL of attempt `k`
  (the `StructuralComparator.compare` outcome);
* `resultCmp k` — the outcome of `_run_result_compare` at attempt `k`
  (execution of both SQL strings plus `ResultComparator.compare`);
* `propose k` — the parsed repair proposal of retry `k`
  (the `{actions, reasoning}` object consumed by `Repairer.propose`). -/
structure CaseEnv where
  ask : Nat → AgentResponse
  structural : Nat → CompareResult
  resultCmp : Nat → ResultCompareResult
  propose : Nat → List ProposedAction × String

/-- `CaseResult` dataclass. -/
structure CaseResult where
  case_id : String
  passed : Bool
  retries : Nat := 0
  structural_result : Option CompareResult := none
  result_result : Option ResultCompareResult := none
  repair_plans : List RepairPlan := []
  error : Option String := none
  deriving DecidableEq

/-- `RunSummary` dataclass. -/
structure RunSummary where
  total : Nat
  passed : Nat
  repaired : Nat
  failed : Nat
  results : List CaseResult
  deriving DecidableEq

/-- The failure context built from a result mismatch (lines 85 and 150 of
`runner.py`). -/
def resultFailureContext (r : ResultCompareResult) : String :=
  "Result mismatch: " ++ toString r.row_mismatches ++ " rows differ. " ++
    strListRepr r.sample_diffs

/-- The failure context built from a structural mismatch (lines 87 and 152 of
`runner.py`). -/
def structuralFailureContext (c : CompareResult) : String :=
  "Structural mismatch: " ++ strListRepr c.differences

/-- `Repairer.propose`: each parsed `{type, file, content}` triple becomes a
`RepairAction` with `_original` unset. -/
def proposedPlan (p : List ProposedAction × String) : RepairPlan :=
  { actions := p.1.map ProposedAction.toAction, reasoning := p.2 }

/-- The repair loop of `Runner.run_case` (lines 100–164 of `runner.py`).
`retry` is the Python loop index, `fuel = max_retries - retry` the remaining
iterations; `gen`, `failCtx`, `structRes`, `resOut` and `plans` carry the
loop-mutated locals `generated_sql`, `failure_context`, `struct_result`,
`result_outcome` and `repair_plans`.  In the source, `repair_plans.append`
stores a reference to the plan later mutated in place by `Repairer.apply`;
here the post-apply plan is appended, which is observationally the same.
Returns the `CaseResult` together with the final `_llm_calls` counter and
filesystem. -/
def runRetries (cfg : RunnerConfig) (env : CaseEnv) (caseId : String) :
    Nat → Nat → String → String → CompareResult → Option ResultCompareResult →
    List RepairPlan → Nat → Fs → CaseResult × Nat × Fs
  | _, 0, _, failCtx, structRes, resOut, plans, calls, fs =>
    (⟨caseId, false, cfg.max_retries, some structRes, resOut, plans, some failCtx⟩,
      calls, fs)
  | retry, fuel + 1, gen, failCtx, structRes, resOut, plans, calls, fs =>
    if cfg.max_llm_calls ≤ calls then
      (⟨caseId, false, retry, none, none, plans,
        some "Global LLM call budget exhausted"⟩, calls, fs)
    else
      let plan := proposedPlan (env.propose retry)
      let calls := calls + 1
      let applied := if cfg.dry_run then (plan, fs) else Repairer.apply plan fs
      let plan := applied.1
      let fs := applied.2
      let plans := plans ++ [plan]
      match env.ask (retry + 1) with
      | .other _ =>
        let calls := calls + 1
        let fs := if cfg.dry_run then fs else Repairer.revert plan fs
        runRetries cfg env caseId (retry + 1) fuel gen failCtx structRes resOut
          plans calls fs
      | .sql s =>
        let calls := calls + 1
        let structRes2 := env.structural (retry + 1)
        let calls := calls + 1
        if structRes2.matched then
          let resOut2 := env.resultCmp (retry + 1)
          if resOut2.matched then
            (⟨caseId, true, retry + 1, some structRes2, some resOut2, plans, none⟩,
              calls, fs)
          else
            runRetries cfg env caseId (retry + 1) fuel s
              (resultFailureContext resOut2) structRes2 (some resOut2) plans calls fs
        else
          let fs := if cfg.dry_run then fs else Repairer.revert plan fs
          runRetries cfg env caseId (retry + 1) fuel s
            (structuralFailureContext structRes2) structRes2 resOut plans calls fs

/-- `Runner.run_case` (lines 60–164 of `runner.py`), with the oracle-call
counter `_llm_calls` and the knowledge-base filesystem threaded explicitly. -/
def Runner.run_case (cfg : RunnerConfig) (env : CaseEnv) (case : BenchmarkCase)
    (calls : Nat) (fs : Fs) : CaseResult × Nat × Fs :=
  match env.ask 0 with
  | .other msg =>
    (⟨case.id, false, 0, none, none, [],
      some (msg.getD "Agent did not return SQL")⟩, calls + 1, fs)
  | .sql g =>
    let calls := calls + 1
    let structRes := env.structural 0
    let calls := calls + 1
    if structRes.matched then
      let resOut := env.resultCmp 0
      if resOut.matched then
        (⟨case.id, true, 0, some structRes, some resOut, [], none⟩, calls, fs)
      else
        let failCtx := resultFailureContext resOut
        if cfg.no_repair then
          (⟨case.id, false, 0, some structRes, some resOut, [], some failCtx⟩,
            calls, fs)
        else
          runRetries cfg env case.id 0 cfg.max_retries g failCtx structRes
            (some resOut) [] calls fs
    else
      let failCtx := structuralFailureContext structRes
      if cfg.no_repair then
        (⟨case.id, false, 0, some structRes, none, [], some failCtx⟩, calls, fs)
      else
        runRetries cfg env case.id 0 cfg.max_retries g failCtx structRes none
          [] calls fs

/-- The per-case loop of `Runner.run_all` (lines 173–177 of `runner.py`). -/
def runCases (cfg : RunnerConfig) (env : BenchmarkCase → CaseEnv) :
    List BenchmarkCase → Nat → Fs → List CaseResult × Nat × Fs
  | [], calls, fs => ([], calls, fs)
  | c :: cs, calls, fs =>
    let step := Runner.run_case cfg (env c) c calls fs
    let rest := runCases cfg env cs step.2.1 step.2.2
    (step.1 :: rest.1, rest.2.1, rest.2.2)

/-- `Runner.run_all` (lines 173–189 of `runner.py`).  The incoming `calls`
value is the runner's `_llm_calls` counter at the time of the call (0 for a
freshly constructed Runner); note the source does not reset it. -/
def Runner.run_all (cfg : RunnerConfig) (env : BenchmarkCase → CaseEnv)
    (cases : List BenchmarkCase) (calls : Nat) (fs : Fs) :
    RunSummary × Nat × Fs :=
  let r := runCases cfg env cases calls fs
  let results := r.1
  ({ total := results.length
     passed := results.countP fun c => c.passed && c.retries == 0
     repaired := results.countP fun c => c.passed && 0 < c.retries
     failed := results.countP fun c => !c.passed
     results := results }, r.2.1, r.2.2)

/-! ## Claim C4 — StructuralComparator error handling -/

/-- C4 counterexample: an oracle response whose parsed JSON object has no
`match` key (here with an empty `differences` list present) is absorbed by
`StructuralComparator.compare` as `CompareResult(match=False, differences=[])`
— no error is raised, contradicting the claim that such a response is a hard
error for the comparison call. -/
theorem C4_counterexample :
    StructuralComparator.compare ⟨none, some []⟩ =
      { matched := false, differences := [] } := by
  decide

/-- C4 amended: `StructuralComparator.compare` never rejects a parsed
response; it absorbs missing fields through `dict.get` defaults, and the
resulting `match` is `true` exactly when the `match` key is present with
value `true` — in particular a response with no `match` key yields a
`CompareResult` with `match = false`. -/
theorem C4_compare_absorbs_response (r : StructuralResponse) :
    ((StructuralComparator.compare r).matched = true ↔ r.matchField = some true) ∧
      (StructuralComparator.compare r).differences = r.differencesField.getD [] := by
  constructor
  · cases hm : r.matchField with
    | none => simp [StructuralComparator.compare, hm]
    | some b => cases b <;> simp [StructuralComparator.compare, hm]
  · rfl

/-! ## Claim C5 — loader filtering -/

/-- A benchmark record with id `c1` and tag `a`, used to refute C5. -/
def c5Record : CaseRecord :=
  { id := "c1", question := "q", expected_sql := "sql", tagsField := some ["a"] }

/-- C5 counterexample: with `caseId = "c1"` given, the claim says the loader
returns the case with that exact id regardless of any `tags` argument; but
with `tags = ["b"]` also given, the source applies both filters (two
independent `if`s) and returns nothing, although a case with id `c1` exists. -/
theorem C5_counterexample :
    BenchmarkLoader.load (some ["b"]) (some "c1") [c5Record] = [] ∧
      (buildCase c5Record).id = "c1" := by
  constructor
  · rfl
  · rfl

/-- C5 amended: the `case_id` filter and the `tags` filter compose instead of
being mutually exclusive: the loader returns, in source order, exactly the
cases that pass the exact-id filter (when `case_id` is truthy) and also pass
the non-empty-tag-intersection filter (when `tags` is truthy); with neither
argument truthy all cases are returned. -/
theorem C5_load_filters_compose (tags : Option (List String))
    (case_id : Option String) (records : List CaseRecord) :
    BenchmarkLoader.load tags case_id records =
      (records.map buildCase).filter fun c =>
        (!truthyStr case_id || c.id == case_id.getD "") &&
          (!truthyTags tags || tagsIntersect (tags.getD []) c.tags) := by
  unfold BenchmarkLoader.load
  cases hid : truthyStr case_id <;> cases htg : truthyTags tags <;>
    simp [List.filter_filter, Bool.and_comm]

/-! ## Claim C3 — revert on an unapplied plan -/

/-- A filesystem with one pre-existing knowledge-base file, used to refute
C3. -/
def c3Fs : Fs := fun p => if p = "kb/f.sql" then some "data" else none

/-- A plan targeting that file whose `_original` was never populated (it was
never passed through `apply`). -/
def c3Plan : RepairPlan :=
  { actions := [{ type := "edit_snippet", file := "kb/f.sql", content := "new" }]
    reasoning := "r" }

/-- C3 counterexample: reverting a plan that was never applied deletes a file
that exists on disk but was not created by `apply` — `revert` sees
`_original is None` (the never-populated marker) and falls into the
`os.remove` branch, contradicting the claimed no-op. -/
theorem C3_counterexample :
    Repairer.revert c3Plan c3Fs "kb/f.sql" = none ∧
      c3Fs "kb/f.sql" = some "data" := by
  constructor
  · rfl
  · rfl

/-- An unapplied action (`_original = None`) leaves a path other than its
target unchanged, and erases its target. -/
theorem revertAction_unapplied (a : RepairAction) (fs : Fs) (f : String)
    (ha : a.original = none) :
    revertAction a fs f = if a.file = f then none else fs f := by
  simp only [revertAction, ha]
  by_cases haf : a.file = f
  · subst haf
    rw [if_pos rfl]
    by_cases hex : (fs a.file).isSome
    · rw [if_pos hex]
      simp [Fs.set]
    · rw [if_neg hex]
      exact Option.not_isSome_iff_eq_none.mp hex
  · have hfa : ¬f = a.file := fun h => haf h.symm
    rw [if_neg haf]
    by_cases hex : (fs a.file).isSome
    · rw [if_pos hex]
      simp [Fs.set, hfa]
    · rw [if_neg hex]

theorem revertActions_unapplied :
    ∀ (l : List RepairAction), (∀ a ∈ l, a.original = none) →
    ∀ (fs : Fs) (f : String),
    revertActions l fs f = if l.any (fun a => a.file == f) then none else fs f
  | [], _, fs, f => by simp [revertActions]
  | a :: rest, h, fs, f => by
    have ha : a.original = none := h a (List.mem_cons_self a rest)
    have hrest : ∀ b ∈ rest, b.original = none :=
      fun b hb => h b (List.mem_cons_of_mem a hb)
    show revertActions rest (revertAction a fs) f = _
    rw [revertActions_unapplied rest hrest (revertAction a fs) f,
      revertAction_unapplied a fs f ha]
    by_cases haf : a.file = f
    · simp [List.any_cons, beq_iff_eq, haf]
    · have hbeq : (a.file == f) = false := beq_eq_false_iff_ne.mpr haf
      simp only [List.any_cons, hbeq, Bool.false_or, if_neg haf]

/-- C3 amended: on a plan none of whose actions had `originalContent`
populated, `revert` deletes every file targeted by an action when it exists
(an unpopulated `_original` is the same `None` marker as "file was absent at
apply time", so the file is treated as if created by `apply`), and leaves
every other path unchanged; in particular it can delete files that exist on
disk but were not created by `apply`. -/
theorem C3_revert_unapplied_deletes_targets (p : RepairPlan) (fs : Fs)
    (f : String) (h : ∀ a ∈ p.actions, a.original = none) :
    Repairer.revert p fs f =
      if p.actions.any fun a => a.file == f then none else fs f :=
  revertActions_unapplied p.actions h fs f

/-- C3 witness: the amended theorem applied to a concrete unapplied plan and
filesystem — the pre-existing target file is deleted. -/
theorem C3_revert_unapplied_deletes_targets_witness :
    (∀ a ∈ c3Plan.actions, a.original = none) ∧
      Repairer.revert c3Plan c3Fs "kb/g.sql" =
        (if c3Plan.actions.any fun a => a.file == "kb/g.sql" then none
          else c3Fs "kb/g.sql") :=
  ⟨by decide, C3_revert_unapplied_deletes_targets c3Plan c3Fs "kb/g.sql"
    (by decide)⟩

/-! ## Claim C2 — apply-then-revert round trip -/

theorem Fs.set_set_self (fs : Fs) (x : String) (v w : Option String) :
    (fs.set x v).set x w = fs.set x w := by
  funext p
  unfold Fs.set
  by_cases hp : p = x <;> simp [hp]

theorem Fs.set_self (fs : Fs) (x : String) : fs.set x (fs x) = fs := by
  funext p
  unfold Fs.set
  by_cases hp : p = x <;> simp [hp]

theorem Fs.set_eval_ne (fs : Fs) {p x : String} (v : Option String)
    (hp : p ≠ x) : (fs.set x v) p = fs p := by
  unfold Fs.set
  rw [if_neg hp]

theorem Fs.set_set_comm (g : Fs) {p x : String} (w v : Option String)
    (hpx : p ≠ x) : (g.set x v).set p w = (g.set p w).set x v := by
  funext q
  unfold Fs.set
  by_cases hqp : q = p
  · subst hqp
    simp [hpx]
  · by_cases hqx : q = x
    · subst hqx
      have hxp : ¬q = p := hqp
      simp [hxp]
    · simp [hqp, hqx]

/-- `apply` leaves the files of the actions unchanged (it only populates
`_original` and rewrites contents). -/
theorem applyActions_files : ∀ (l : List RepairAction) (fs : Fs),
    (applyActions l fs).1.map RepairAction.file = l.map RepairAction.file
  | [], _ => rfl
  | a :: rest, fs => by
    show ((({ a with original := fs a.file } : RepairAction) ::
        (applyActions rest (fs.set a.file (some a.content))).1).map
          RepairAction.file) = _
    rw [List.map_cons, List.map_cons,
      applyActions_files rest (fs.set a.file (some a.content))]

/-- `apply` does not change paths not targeted by any action. -/
theorem applyActions_eval_ne : ∀ (l : List RepairAction) (fs : Fs) (x : String),
    (∀ b ∈ l, b.file ≠ x) → (applyActions l fs).2 x = fs x
  | [], _, _, _ => rfl
  | a :: rest, fs, x, h => by
    have ha : a.file ≠ x := h a (List.mem_cons_self a rest)
    have hrest : ∀ b ∈ rest, b.file ≠ x :=
      fun b hb => h b (List.mem_cons_of_mem a hb)
    show (applyActions rest (fs.set a.file (some a.content))).2 x = fs x
    rw [applyActions_eval_ne rest _ x hrest]
    exact Fs.set_eval_ne fs _ fun hx => ha hx.symm

/-- A revert step on a file distinct from `x` commutes with writing `x`. -/
theorem revertAction_set_comm (b : RepairAction) (g : Fs) {x : String}
    (v : Option String) (hb : b.file ≠ x) :
    revertAction b (g.set x v) = (revertAction b g).set x v := by
  unfold revertAction
  cases ho : b.original with
  | some o => exact Fs.set_set_comm g (some o) v hb
  | none =>
    rw [Fs.set_eval_ne g v hb]
    by_cases hex : (g b.file).isSome
    · rw [if_pos hex, if_pos hex]
      exact Fs.set_set_comm g none v hb
    · rw [if_neg hex, if_neg hex]

theorem revertActions_set_comm : ∀ (l : List RepairAction) (g : Fs) (x : String)
    (v : Option String), (∀ b ∈ l, b.file ≠ x) →
    revertActions l (g.set x v) = (revertActions l g).set x v
  | [], _, _, _, _ => rfl
  | b :: rest, g, x, v, h => by
    have hb : b.file ≠ x := h b (List.mem_cons_self b rest)
    have hrest : ∀ c ∈ rest, c.file ≠ x :=
      fun c hc => h c (List.mem_cons_of_mem b hc)
    show revertActions rest (revertAction b (g.set x v)) = _
    rw [revertAction_set_comm b g v hb,
      revertActions_set_comm rest (revertAction b g) x v hrest]
    rfl

/-- Round trip for the action lists: applying then reverting a list of
actions with pairwise-distinct files restores the filesystem exactly. -/
theorem applyActions_revertActions : ∀ (l : List RepairAction) (fs : Fs),
    l.Pairwise (fun a b => a.file ≠ b.file) →
    revertActions (applyActions l fs).1 (applyActions l fs).2 = fs
  | [], _, _ => rfl
  | a :: rest, fs, hp => by
    obtain ⟨ha, hrest⟩ := List.pairwise_cons.mp hp
    have hrestne : ∀ b ∈ rest, b.file ≠ a.file :=
      fun b hb => fun he => ha b hb he.symm
    have hfs2at :
        (applyActions rest (fs.set a.file (some a.content))).2 a.file =
          some a.content := by
      rw [applyActions_eval_ne rest _ a.file hrestne]
      unfold Fs.set
      rw [if_pos rfl]
    have hstep : revertAction { a with original := fs a.file }
        (applyActions rest (fs.set a.file (some a.content))).2 =
        ((applyActions rest (fs.set a.file (some a.content))).2).set a.file
          (fs a.file) := by
      unfold revertAction
      dsimp only
      cases ho : fs a.file with
      | some o => rfl
      | none =>
        rw [hfs2at]
        rfl
    have hfiles :
        ∀ b ∈ (applyActions rest (fs.set a.file (some a.content))).1,
          b.file ≠ a.file := by
      intro b hb
      have hmem : b.file ∈
          (applyActions rest (fs.set a.file (some a.content))).1.map
            RepairAction.file :=
        List.mem_map_of_mem RepairAction.file hb
      rw [applyActions_files rest _] at hmem
      obtain ⟨c, hc, hce⟩ := List.mem_map.mp hmem
      rw [← hce]
      exact hrestne c hc
    show revertActions (applyActions rest (fs.set a.file (some a.content))).1
      (revertAction { a with original := fs a.file }
        (applyActions rest (fs.set a.file (some a.content))).2) = fs
    rw [hstep,
      revertActions_set_comm _ _ a.file (fs a.file) hfiles,
      applyActions_revertActions rest _ hrest, Fs.set_set_self, Fs.set_self]

/-- The knowledge-base filesystem used to refute C2: one metric file with
content `orig`. -/
def c2Fs : Fs := fun p => if p = "kb/m.yaml" then some "orig" else none

/-- A plan with two actions targeting the same file, used to refute C2. -/
def c2Plan : RepairPlan :=
  { actions :=
      [{ type := "edit_metric", file := "kb/m.yaml", content := "v1" },
       { type := "edit_metric", file := "kb/m.yaml", content := "v2" }]
    reasoning := "r" }

/-- C2 counterexample: for a plan with two actions on the same file, `apply`
records the first action's content as the second action's `_original`, and
the forward-order `revert` then finishes by restoring that intermediate
content — after apply-then-revert the file holds `v1`, not its pre-apply
content `orig`.  This contradicts the claim for plans containing multiple
actions that target the same file. -/
theorem C2_counterexample :
    Repairer.revert (Repairer.apply c2Plan c2Fs).1 (Repairer.apply c2Plan c2Fs).2
        "kb/m.yaml" = some "v1" ∧
      c2Fs "kb/m.yaml" = some "orig" := by
  constructor
  · rfl
  · rfl

/-- C2 amended: the apply-then-revert round trip restores every file's
pre-apply content (and absence) exactly, provided the plan's actions target
pairwise-distinct files; with duplicate targets the revert leaves the
intermediate content recorded by the later action. -/
theorem C2_apply_revert_roundtrip (p : RepairPlan) (fs : Fs)
    (h : p.actions.Pairwise fun a b => a.file ≠ b.file) :
    Repairer.revert (Repairer.apply p fs).1 (Repairer.apply p fs).2 = fs :=
  applyActions_revertActions p.actions fs h

/-- A plan with two actions on distinct files (one pre-existing, one new),
used as the C2 witness input. -/
def c2DistinctPlan : RepairPlan :=
  { actions :=
      [{ type := "edit_metric", file := "kb/m.yaml", content := "v1" },
       { type := "create_snippet", file := "kb/new.sql", content := "v2" }]
    reasoning := "r" }

/-- C2 witness: the amended round-trip theorem applied to a concrete
distinct-files plan on a concrete filesystem. -/
theorem C2_apply_revert_roundtrip_witness :
    (c2DistinctPlan.actions.Pairwise fun a b => a.file ≠ b.file) ∧
      Repairer.revert (Repairer.apply c2DistinctPlan c2Fs).1
        (Repairer.apply c2DistinctPlan c2Fs).2 = c2Fs :=
  ⟨by decide, C2_apply_revert_roundtrip c2DistinctPlan c2Fs (by decide)⟩

/-! ## Claim C6 — the sample-diff cap -/

theorem missingExpectedRows_len : ∀ (gs : List (List Value)) (i mis : Nat)
    (diffs : List String),
    (missingExpectedRows i gs mis diffs).2.length = diffs.length + gs.length
  | [], _, _, _ => rfl
  | _ :: gs, i, mis, diffs => by
    show (missingExpectedRows (i + 1) gs (mis + 1) (diffs ++ [_])).2.length = _
    rw [missingExpectedRows_len gs (i + 1) (mis + 1), List.length_append]
    simp
    omega

theorem missingGeneratedRows_len : ∀ (es : List (List Value)) (i mis : Nat)
    (diffs : List String),
    (missingGeneratedRows i es mis diffs).2.length = diffs.length + es.length
  | [], _, _, _ => rfl
  | _ :: es, i, mis, diffs => by
    show (missingGeneratedRows (i + 1) es (mis + 1) (diffs ++ [_])).2.length = _
    rw [missingGeneratedRows_len es (i + 1) (mis + 1), List.length_append]
    simp
    omega

theorem compareRows_len_bound (tol : ℚ) : ∀ (es gs : List (List Value))
    (i mis : Nat) (diffs : List String),
    (compareRows tol i es gs mis diffs).2.length ≤
      max diffs.length 5 + (max es.length gs.length - min es.length gs.length)
  | [], gs, i, mis, diffs => by
    show (missingExpectedRows i gs mis diffs).2.length ≤ _
    rw [missingExpectedRows_len]
    simp only [List.length_nil]
    omega
  | _ :: es, [], i, mis, diffs => by
    show (missingGeneratedRows i (_ :: es) mis diffs).2.length ≤ _
    rw [missingGeneratedRows_len]
    simp only [List.length_nil, List.length_cons]
    omega
  | e :: es, g :: gs, i, mis, diffs => by
    show (if rowsEqual tol e g then _ else _ : Nat × List String).2.length ≤ _
    by_cases heq : rowsEqual tol e g
    · rw [if_pos heq]
      have hb := compareRows_len_bound tol es gs (i + 1) mis diffs
      simp only [List.length_cons]
      omega
    · rw [if_neg heq]
      by_cases hlt : diffs.length < 5
      · rw [if_pos hlt]
        have hb := compareRows_len_bound tol es gs (i + 1) (mis + 1)
          (diffs ++ ["Row " ++ toString i ++ ": expected " ++ rowRepr e ++
            ", got " ++ rowRepr g])
        rw [List.length_append] at hb
        simp only [List.length_cons, List.length_nil] at *
        omega
      · rw [if_neg hlt]
        have hb := compareRows_len_bound tol es gs (i + 1) (mis + 1) diffs
        simp only [List.length_cons, List.length_nil] at *
        omega

/-- A generated result with six rows, against an empty expected result, used
to refute C6. -/
def c6Gen : QueryResult :=
  { columns := ["n"]
    rows := [[.str "a"], [.str "b"], [.str "c"], [.str "d"], [.str "e"], [.str "f"]]
    error := none }

/-- C6 counterexample: when the two sides have different row counts, every
missing row appends a diff with no cap check, so `sample_diffs` here has 6
entries — more than the claimed cap of 5. -/
theorem C6_counterexample :
    (ResultComparator.compare defaultTolerance
        { columns := ["n"], rows := [], error := none } c6Gen).sample_diffs.length
      = 6 ∧ 5 < 6 := by
  constructor
  · decide
  · decide

/-- C6 amended: the 5-entry cap applies only to paired-row value mismatches;
each row index present on only one side appends its diff unconditionally, so
`sample_diffs` holds at most the first 5 paired-row mismatch diffs plus one
diff per missing row: its length is at most `5 + |len(exp) - len(gen)|`
(hence at most 5 whenever both sides have equally many rows). -/
theorem C6_sample_diffs_bound (tol : ℚ) (e g : QueryResult) :
    (ResultComparator.compare tol e g).sample_diffs.length ≤
      5 + (max e.rows.length g.rows.length - min e.rows.length g.rows.length) := by
  unfold ResultComparator.compare
  by_cases he : e.has_error
  · simp [he]
  · by_cases hg : g.has_error
    · simp [he, hg]
    · by_cases hc : sortCols e.columns ≠ sortCols g.columns
      · simp [he, hg, hc]
      · have hb := compareRows_len_bound tol (sortRows e.rows) (sortRows g.rows)
          0 0 []
        have hle : (sortRows e.rows).length = e.rows.length :=
          (List.perm_insertionSort RowLe e.rows).length_eq
        have hlg : (sortRows g.rows).length = g.rows.length :=
          (List.perm_insertionSort RowLe g.rows).length_eq
        simp only [he, hg, hc, if_false, if_neg, Bool.false_eq_true,
          not_false_eq_true]
        simp only [hle, hlg, List.length_nil] at hb
        simpa using hb

/-! ## Claim C10 — tolerance only for numeric cell pairs -/

/-- C10: in `_rows_equal`, the relative-difference tolerance governs exactly
the pairs where both cells are numeric (`int`/`float`); any pair with a
non-numeric side is compared by exact equality — so an `int` never equals a
`str` (e.g. `1` vs `"1"`), and rows of different lengths always count as a
mismatch. -/
theorem C10_tolerance_only_for_numeric (tol : ℚ) (a b : Value)
    (ra rb : List Value) :
    (¬(a.isNum = true ∧ b.isNum = true) → (cellOk tol a b = true ↔ a = b)) ∧
      ((a.isNum = true ∧ b.isNum = true) →
        (cellOk tol a b = true ↔
          ((|a.num| < nearZeroEps ∧ |b.num| < nearZeroEps) ∨
            |a.num - b.num| / max |a.num| |b.num| ≤ tol))) ∧
      (ra.length ≠ rb.length → rowsEqual tol ra rb = false) ∧
      (∀ (n : ℤ) (s : String), cellOk tol (.int n) (.str s) = false) := by
  refine ⟨?_, ?_, ?_, ?_⟩
  · intro h
    have hand : (a.isNum && b.isNum) = false := by
      cases ha : a.isNum <;> cases hb : b.isNum <;> simp_all
    simp [cellOk, hand]
  · intro h
    have hand : (a.isNum && b.isNum) = true := by
      simp [h.1, h.2]
    by_cases hz : |a.num| < nearZeroEps ∧ |b.num| < nearZeroEps
    · simp [cellOk, hand, hz]
    · simp only [cellOk, hand, if_true, if_neg hz, Bool.not_eq_eq_eq_not,
        Bool.not_true, decide_eq_false_iff_not, not_lt]
      constructor
      · intro hle
        exact Or.inr hle
      · intro hor
        rcases hor with hor | hor
        · exact absurd hor hz
        · exact hor
  · intro h
    simp [rowsEqual, h]
  · intro n s
    simp [cellOk, Value.isNum]

/-- C10 witness: the theorem applied at concrete cells — `1` vs `"1"` falls
under exact equality (hence unequal), `2` vs `3` falls under the tolerance
formula, and a one-cell row never equals an empty row. -/
theorem C10_tolerance_only_for_numeric_witness :
    ¬((Value.int 1).isNum = true ∧ (Value.str "1").isNum = true) ∧
      (cellOk defaultTolerance (Value.int 1) (Value.str "1") = true ↔
        Value.int 1 = Value.str "1") ∧
      ((Value.int 2).isNum = true ∧ (Value.int 3).isNum = true) ∧
      (cellOk defaultTolerance (Value.int 2) (Value.int 3) = true ↔
        ((|(Value.int 2).num| < nearZeroEps ∧ |(Value.int 3).num| < nearZeroEps) ∨
          |(Value.int 2).num - (Value.int 3).num| /
            max |(Value.int 2).num| |(Value.int 3).num| ≤ defaultTolerance)) ∧
      ([Value.int 1].length ≠ List.length ([] : List Value)) ∧
      rowsEqual defaultTolerance [Value.int 1] [] = false :=
  ⟨by decide,
    (C10_tolerance_only_for_numeric defaultTolerance (Value.int 1)
      (Value.str "1") [] []).1 (by decide),
    by decide,
    (C10_tolerance_only_for_numeric defaultTolerance (Value.int 2)
      (Value.int 3) [] []).2.1 (by decide),
    by decide,
    (C10_tolerance_only_for_numeric defaultTolerance (Value.int 2)
      (Value.int 3) [Value.int 1] []).2.2.1 (by decide)⟩

/-! ## Claim C8 — argument-order symmetry of the result comparator -/

theorem cellOk_symm (tol : ℚ) (a b : Value) : cellOk tol a b = cellOk tol b a := by
  unfold cellOk
  rw [Bool.and_comm]
  by_cases hn : (b.isNum && a.isNum) = true
  · rw [if_pos hn, if_pos hn]
    by_cases hz : |a.num| < nearZeroEps ∧ |b.num| < nearZeroEps
    · rw [if_pos hz, if_pos (And.intro hz.2 hz.1)]
    · have hz2 : ¬(|b.num| < nearZeroEps ∧ |a.num| < nearZeroEps) :=
        fun h => hz ⟨h.2, h.1⟩
      rw [if_neg hz, if_neg hz2, abs_sub_comm, max_comm]
  · rw [if_neg hn, if_neg hn]
    by_cases hab : a = b
    · subst hab
      rfl
    · rw [decide_eq_false hab, decide_eq_false fun h => hab h.symm]

theorem zipAllCells_symm (tol : ℚ) : ∀ (ra rb : List Value),
    ((ra.zip rb).all fun p => cellOk tol p.1 p.2) =
      ((rb.zip ra).all fun p => cellOk tol p.1 p.2)
  | [], [] => rfl
  | [], _ :: _ => rfl
  | _ :: _, [] => rfl
  | a :: as, b :: bs => by
    simp only [List.zip_cons_cons, List.all_cons]
    rw [cellOk_symm tol a b, zipAllCells_symm tol as bs]

theorem rowsEqual_symm (tol : ℚ) (ra rb : List Value) :
    rowsEqual tol ra rb = rowsEqual tol rb ra := by
  unfold rowsEqual
  by_cases hl : ra.length = rb.length
  · rw [if_pos hl, if_pos hl.symm]
    exact zipAllCells_symm tol ra rb
  · rw [if_neg hl, if_neg fun h => hl h.symm]

theorem missingExpectedRows_fst : ∀ (gs : List (List Value)) (i mis : Nat)
    (diffs : List String),
    (missingExpectedRows i gs mis diffs).1 = mis + gs.length
  | [], _, _, _ => by simp [missingExpectedRows]
  | _ :: gs, i, mis, diffs => by
    show (missingExpectedRows (i + 1) gs (mis + 1) _).1 = _
    rw [missingExpectedRows_fst gs (i + 1) (mis + 1)]
    simp only [List.length_cons]
    omega

theorem missingGeneratedRows_fst : ∀ (es : List (List Value)) (i mis : Nat)
    (diffs : List String),
    (missingGeneratedRows i es mis diffs).1 = mis + es.length
  | [], _, _, _ => by simp [missingGeneratedRows]
  | _ :: es, i, mis, diffs => by
    show (missingGeneratedRows (i + 1) es (mis + 1) _).1 = _
    rw [missingGeneratedRows_fst es (i + 1) (mis + 1)]
    simp only [List.length_cons]
    omega

/-- Swapping the two row lists preserves the mismatch count and the number of
collected diffs (given equally many diffs collected so far). -/
theorem compareRows_symm (tol : ℚ) : ∀ (es gs : List (List Value))
    (i mis : Nat) (d₁ d₂ : List String), d₁.length = d₂.length →
    (compareRows tol i es gs mis d₁).1 = (compareRows tol i gs es mis d₂).1 ∧
      (compareRows tol i es gs mis d₁).2.length =
        (compareRows tol i gs es mis d₂).2.length
  | [], [], _, _, _, _, hlen => ⟨rfl, hlen⟩
  | [], g :: gs, i, mis, d₁, d₂, hlen => by
    constructor
    · show (missingExpectedRows i (g :: gs) mis d₁).1 =
        (missingGeneratedRows i (g :: gs) mis d₂).1
      rw [missingExpectedRows_fst, missingGeneratedRows_fst]
    · show (missingExpectedRows i (g :: gs) mis d₁).2.length =
        (missingGeneratedRows i (g :: gs) mis d₂).2.length
      rw [missingExpectedRows_len, missingGeneratedRows_len, hlen]
  | e :: es, [], i, mis, d₁, d₂, hlen => by
    constructor
    · show (missingGeneratedRows i (e :: es) mis d₁).1 =
        (missingExpectedRows i (e :: es) mis d₂).1
      rw [missingExpectedRows_fst, missingGeneratedRows_fst]
    · show (missingGeneratedRows i (e :: es) mis d₁).2.length =
        (missingExpectedRows i (e :: es) mis d₂).2.length
      rw [missingExpectedRows_len, missingGeneratedRows_len, hlen]
  | e :: es, g :: gs, i, mis, d₁, d₂, hlen => by
    have hL : compareRows tol i (e :: es) (g :: gs) mis d₁ =
        if rowsEqual tol e g then compareRows tol (i + 1) es gs mis d₁
        else compareRows tol (i + 1) es gs (mis + 1)
          (if d₁.length < 5 then
            d₁ ++ ["Row " ++ toString i ++ ": expected " ++ rowRepr e ++
              ", got " ++ rowRepr g]
          else d₁) := rfl
    have hR : compareRows tol i (g :: gs) (e :: es) mis d₂ =
        if rowsEqual tol g e then compareRows tol (i + 1) gs es mis d₂
        else compareRows tol (i + 1) gs es (mis + 1)
          (if d₂.length < 5 then
            d₂ ++ ["Row " ++ toString i ++ ": expected " ++ rowRepr g ++
              ", got " ++ rowRepr e]
          else d₂) := rfl
    rw [hL, hR]
    by_cases heq : rowsEqual tol e g
    · have heq2 : rowsEqual tol g e = true := by
        rw [rowsEqual_symm tol g e]
        exact heq
      rw [if_pos heq, if_pos heq2]
      exact compareRows_symm tol es gs (i + 1) mis d₁ d₂ hlen
    · have heq2 : ¬rowsEqual tol g e = true := by
        rw [rowsEqual_symm tol g e]
        exact heq
      rw [if_neg heq, if_neg heq2]
      apply compareRows_symm
      by_cases hlt : d₁.length < 5
      · rw [if_pos hlt, if_pos (hlen ▸ hlt), List.length_append,
          List.length_append, hlen]
        rfl
      · rw [if_neg hlt, if_neg (hlen ▸ hlt)]
        exact hlen

/-- C8: `ResultComparator.compare(A, B).match = compare(B, A).match` — the
error branches, the sorted-schema check, the independent row sorts and the
symmetric cell comparison all commute with swapping the arguments. -/
theorem C8_compare_match_symm (tol : ℚ) (A B : QueryResult) :
    (ResultComparator.compare tol A B).matched =
      (ResultComparator.compare tol B A).matched := by
  unfold ResultComparator.compare
  by_cases ha : A.has_error
  · by_cases hb : B.has_error <;> simp [ha, hb]
  · by_cases hb : B.has_error
    · simp [ha, hb]
    · by_cases hc : sortCols A.columns ≠ sortCols B.columns
      · have hc2 : sortCols B.columns ≠ sortCols A.columns :=
          fun h => hc h.symm
        simp [ha, hb, hc, hc2]
      · have hcc : sortCols A.columns = sortCols B.columns :=
          not_not.mp fun h => hc h
        have hc2 : ¬sortCols B.columns ≠ sortCols A.columns :=
          fun h => h hcc.symm
        simp only [ha, hb, hc, hc2, Bool.false_eq_true, if_false,
          not_false_eq_true, not_true_eq_false, if_neg]
        have hcnt := (compareRows_symm tol (sortRows A.rows) (sortRows B.rows)
          0 0 [] [] rfl).1
        simp [hcnt]

/-! ## Claim C9 — row-order invariance -/

theorem cellOk_refl {tol : ℚ} (htol : 0 ≤ tol) (a : Value) :
    cellOk tol a a = true := by
  unfold cellOk
  by_cases hn : (a.isNum && a.isNum) = true
  · rw [if_pos hn]
    by_cases hz : |a.num| < nearZeroEps ∧ |a.num| < nearZeroEps
    · rw [if_pos hz]
    · rw [if_neg hz]
      have hd : |a.num - a.num| / max |a.num| |a.num| = 0 := by
        rw [sub_self, abs_zero, zero_div]
      rw [hd]
      simp [not_lt.mpr htol]
  · rw [if_neg hn]
    simp

theorem rowsEqual_refl {tol : ℚ} (htol : 0 ≤ tol) (r : List Value) :
    rowsEqual tol r r = true := by
  unfold rowsEqual
  rw [if_pos rfl]
  induction r with
  | nil => rfl
  | cons a rest ih =>
    simp only [List.zip_cons_cons, List.all_cons, ih, Bool.and_true]
    exact cellOk_refl htol a

theorem compareRows_self {tol : ℚ} (htol : 0 ≤ tol) :
    ∀ (l : List (List Value)) (i mis : Nat) (diffs : List String),
    compareRows tol i l l mis diffs = (mis, diffs)
  | [], _, _, _ => rfl
  | r :: rest, i, mis, diffs => by
    have h : compareRows tol i (r :: rest) (r :: rest) mis diffs =
        if rowsEqual tol r r then compareRows tol (i + 1) rest rest mis diffs
        else compareRows tol (i + 1) rest rest (mis + 1)
          (if diffs.length < 5 then
            diffs ++ ["Row " ++ toString i ++ ": expected " ++ rowRepr r ++
              ", got " ++ rowRepr r]
          else diffs) := rfl
    rw [h, if_pos (rowsEqual_refl htol r)]
    exact compareRows_self htol rest (i + 1) mis diffs

/-- Sorting is a function of the row multiset only: two lists of rows that
are permutations of each other sort to the same list, because `RowLe` is a
total, transitive, antisymmetric order. -/
theorem sortRows_eq_of_perm {rows₁ rows₂ : List (List Value)}
    (h : rows₁.Perm rows₂) : sortRows rows₁ = sortRows rows₂ := by
  apply List.eq_of_perm_of_sorted (r := RowLe)
  · exact (List.perm_insertionSort RowLe rows₁).trans
      (h.trans (List.perm_insertionSort RowLe rows₂).symm)
  · exact List.sorted_insertionSort RowLe rows₁
  · exact List.sorted_insertionSort RowLe rows₂

/-- C9: for an error-free result set and any permutation of its rows (same
columns), the comparator reports a match, for any non-negative tolerance
(the constructor default is `0.0001`). -/
theorem C9_row_order_invariance (tol : ℚ) (A : QueryResult)
    (rows₂ : List (List Value)) (htol : 0 ≤ tol) (herr : A.error = none)
    (hperm : rows₂.Perm A.rows) :
    (ResultComparator.compare tol A
      { columns := A.columns, rows := rows₂, error := none }).matched = true := by
  unfold ResultComparator.compare
  have he : A.has_error = false := by
    simp [QueryResult.has_error, herr]
  have hg : ({ columns := A.columns, rows := rows₂, error := none } :
      QueryResult).has_error = false := rfl
  rw [he, hg]
  simp only [Bool.false_eq_true, if_false]
  have hsort : sortRows rows₂ = sortRows A.rows := sortRows_eq_of_perm hperm
  simp only [ne_eq, not_true_eq_false, if_neg, not_false_eq_true, if_false,
    hsort]
  rw [compareRows_self htol (sortRows A.rows) 0 0 []]
  rfl

/-- C9 witness: the theorem applied at a concrete error-free result set and a
concrete transposition of its two rows. -/
theorem C9_row_order_invariance_witness :
    (0 : ℚ) ≤ defaultTolerance ∧
      (QueryResult.mk ["region"] [[Value.str "ID"], [Value.str "TH"]] none).error
        = none ∧
      ([[Value.str "TH"], [Value.str "ID"]] : List (List Value)).Perm
        [[Value.str "ID"], [Value.str "TH"]] ∧
      (ResultComparator.compare defaultTolerance
        (QueryResult.mk ["region"] [[Value.str "ID"], [Value.str "TH"]] none)
        { columns := ["region"], rows := [[Value.str "TH"], [Value.str "ID"]],
          error := none }).matched = true :=
  ⟨by decide, rfl, List.Perm.swap [Value.str "ID"] [Value.str "TH"] [],
    C9_row_order_invariance defaultTolerance
      (QueryResult.mk ["region"] [[Value.str "ID"], [Value.str "TH"]] none)
      [[Value.str "TH"], [Value.str "ID"]] (by decide) rfl
      (List.Perm.swap [Value.str "ID"] [Value.str "TH"] [])⟩

/-! ## Claim C1 — the oracle-call budget -/

/-- Within the repair loop, the counter never ends above
`max calls (max_llm_calls + 2)`: an iteration is entered only below the
budget and makes at most 3 more calls after the single check at its start. -/
theorem runRetries_calls_le (cfg : RunnerConfig) (env : CaseEnv)
    (caseId : String) : ∀ (fuel retry : Nat) (gen failCtx : String)
    (structRes : CompareResult) (resOut : Option ResultCompareResult)
    (plans : List RepairPlan) (calls : Nat) (fs : Fs),
    (runRetries cfg env caseId retry fuel gen failCtx structRes resOut plans
      calls fs).2.1 ≤ max calls (cfg.max_llm_calls + 2)
  | 0, retry, gen, failCtx, structRes, resOut, plans, calls, fs =>
    Nat.le_max_left _ _
  | fuel + 1, retry, gen, failCtx, structRes, resOut, plans, calls, fs => by
    simp only [runRetries]
    by_cases hb : cfg.max_llm_calls ≤ calls
    · rw [if_pos hb]
      exact Nat.le_max_left _ _
    · rw [if_neg hb]
      cases hask : env.ask (retry + 1) with
      | other m =>
        exact le_trans
          (runRetries_calls_le cfg env caseId fuel _ _ _ _ _ _ _ _) (by omega)
      | sql s =>
        by_cases hs : (env.structural (retry + 1)).matched
        · by_cases hr : (env.resultCmp (retry + 1)).matched
          · simp only [hs, hr, if_true]
            omega
          · simp only [hs, if_true, hr, Bool.false_eq_true, if_false]
            exact le_trans
              (runRetries_calls_le cfg env caseId fuel _ _ _ _ _ _ _ _)
              (by omega)
        · simp only [hs, Bool.false_eq_true, if_false]
          exact le_trans
            (runRetries_calls_le cfg env caseId fuel _ _ _ _ _ _ _ _) (by omega)

/-- `run_case` makes 2 ungated oracle calls (generate, structural compare)
before the repair loop, so its final counter is bounded by
`max (calls + 2) (max_llm_calls + 2)`. -/
theorem run_case_calls_le (cfg : RunnerConfig) (env : CaseEnv)
    (case : BenchmarkCase) (calls : Nat) (fs : Fs) :
    (Runner.run_case cfg env case calls fs).2.1 ≤
      max (calls + 2) (cfg.max_llm_calls + 2) := by
  unfold Runner.run_case
  cases hask : env.ask 0 with
  | other m =>
    show calls + 1 ≤ max (calls + 2) (cfg.max_llm_calls + 2)
    omega
  | sql g =>
    by_cases hs : (env.structural 0).matched
    · by_cases hr : (env.resultCmp 0).matched
      · simp only [hs, hr, if_true]
        omega
      · simp only [hs, if_true, hr, Bool.false_eq_true, if_false]
        by_cases hnr : cfg.no_repair
        · simp only [hnr, if_true]
          omega
        · simp only [hnr, Bool.false_eq_true, if_false]
          exact le_trans
            (runRetries_calls_le cfg env case.id cfg.max_retries _ _ _ _ _ _ _ _)
            (by omega)
    · simp only [hs, Bool.false_eq_true, if_false]
      by_cases hnr : cfg.no_repair
      · simp only [hnr, if_true]
        omega
      · simp only [hnr, Bool.false_eq_true, if_false]
        exact le_trans
          (runRetries_calls_le cfg env case.id cfg.max_retries _ _ _ _ _ _ _ _)
          (by omega)

theorem runCases_calls_le (cfg : RunnerConfig) (env : BenchmarkCase → CaseEnv) :
    ∀ (cases : List BenchmarkCase) (calls : Nat) (fs : Fs),
    (runCases cfg env cases calls fs).2.1 ≤
      max calls cfg.max_llm_calls + 2 * cases.length
  | [], calls, fs => by
    show calls ≤ max calls cfg.max_llm_calls + 2 * List.length []
    omega
  | c :: cs, calls, fs => by
    have hstep := run_case_calls_le cfg (env c) c calls fs
    have hrest := runCases_calls_le cfg env cs
      (Runner.run_case cfg (env c) c calls fs).2.1
      (Runner.run_case cfg (env c) c calls fs).2.2
    show (runCases cfg env cs (Runner.run_case cfg (env c) c calls fs).2.1
      (Runner.run_case cfg (env c) c calls fs).2.2).2.1 ≤ _
    simp only [List.length_cons]
    omega

/-- The empty knowledge-base filesystem. -/
def emptyFs : Fs := fun _ => none

/-- A collaborator environment in which the case passes immediately: the
agent returns SQL, the structural oracle judges a match and the result sets
match. -/
def passEnv : CaseEnv :=
  { ask := fun _ => .sql "SELECT 1"
    structural := fun _ => { matched := true, differences := [] }
    resultCmp := fun _ => { matched := true }
    propose := fun _ => ([], "") }

/-- C1 counterexample: with `max_llm_calls = 1`, a case that passes cleanly
still makes 2 oracle calls (generation and structural comparison), exceeding
the budget — the budget is not checked before these calls. -/
theorem C1_counterexample :
    1 < (Runner.run_case
        { max_retries := 3, max_llm_calls := 1, no_repair := false,
          dry_run := false }
        passEnv { id := "c", question := "q", expected_sql := "s" } 0
        emptyFs).2.1 := by
  decide

/-- C1 amended: the counter can exceed `max_llm_calls`.  The only budget
check is at the start of each repair attempt: an attempt beginning with the
counter at or above `max_llm_calls` terminates the case immediately with the
budget-exhaustion error, making no further oracle calls and preserving the
plan history; but the per-case generation and structural-comparison calls
are never gated, and an entered repair attempt makes up to 3 more calls
after its single check, so a whole run ends with at most
`max(initial, max_llm_calls) + 2·(number of cases)` oracle calls — not
`max_llm_calls`. -/
theorem C1_budget_checked_only_per_retry :
    (∀ (cfg : RunnerConfig) (env : CaseEnv) (caseId : String)
        (retry fuel : Nat) (gen failCtx : String) (structRes : CompareResult)
        (resOut : Option ResultCompareResult) (plans : List RepairPlan)
        (calls : Nat) (fs : Fs), cfg.max_llm_calls ≤ calls →
      runRetries cfg env caseId retry (fuel + 1) gen failCtx structRes resOut
          plans calls fs =
        ({ case_id := caseId, passed := false, retries := retry,
           repair_plans := plans,
           error := some "Global LLM call budget exhausted" }, calls, fs)) ∧
      (∀ (cfg : RunnerConfig) (env : BenchmarkCase → CaseEnv)
          (cases : List BenchmarkCase) (calls : Nat) (fs : Fs),
        (Runner.run_all cfg env cases calls fs).2.1 ≤
          max calls cfg.max_llm_calls + 2 * cases.length) := by
  constructor
  · intro cfg env caseId retry fuel gen failCtx structRes resOut plans calls
      fs h
    simp only [runRetries, if_pos h]
  · intro cfg env cases calls fs
    exact runCases_calls_le cfg env cases calls fs

/-- C1 witness: the amended theorem applied at a concrete over-budget state
(counter 2, budget 1): the repair attempt terminates at once with the
budget-exhaustion error and an unchanged counter, and the concrete run's
total stays within the amended bound. -/
theorem C1_budget_checked_only_per_retry_witness :
    ((1 : Nat) ≤ 2) ∧
      runRetries
          { max_retries := 3, max_llm_calls := 1, no_repair := false,
            dry_run := false }
          passEnv "c" 0 (0 + 1) "g" "f" { matched := false } none [] 2 emptyFs =
        ({ case_id := "c", passed := false, retries := 0, repair_plans := [],
           error := some "Global LLM call budget exhausted" }, 2, emptyFs) :=
  ⟨by decide,
    (C1_budget_checked_only_per_retry).1
      { max_retries := 3, max_llm_calls := 1, no_repair := false,
        dry_run := false }
      passEnv "c" 0 0 "g" "f" { matched := false } none [] 2 emptyFs
      (by decide)⟩

/-! ## Claim C7 — counter scope across `run_all` invocations -/

/-- A collaborator environment in which attempt 0 fails the structural gate
and attempt 1 passes (the repair worked), used to refute C7. -/
def c7Env : CaseEnv :=
  { ask := fun _ => .sql "SELECT 1"
    structural := fun k =>
      if k = 0 then { matched := false, differences := ["d"] }
      else { matched := true, differences := [] }
    resultCmp := fun _ => { matched := true }
    propose := fun _ => ([], "fix") }

/-- The benchmark case used to refute C7. -/
def c7Case : BenchmarkCase := { id := "c", question := "q", expected_sql := "s" }

/-- The configuration used to refute C7: one retry, budget 3. -/
def c7Cfg : RunnerConfig :=
  { max_retries := 1, max_llm_calls := 3, no_repair := false, dry_run := false }

/-- C7 counterexample: `run_all` never resets `_llm_calls` (it is zeroed only
in `__init__`).  A first `run_all` repairs the case using 5 oracle calls; a
second `run_all` on the same Runner starts from counter 5, immediately
exhausts the budget of 3 and fails the case — whereas the claim (fresh zero
counter per `run_all`) would make the second run identical to the first. -/
theorem C7_counterexample :
    (Runner.run_all c7Cfg (fun _ => c7Env) [c7Case] 0 emptyFs).1.repaired = 1 ∧
      (Runner.run_all c7Cfg (fun _ => c7Env) [c7Case] 0 emptyFs).2.1 = 5 ∧
      (Runner.run_all c7Cfg (fun _ => c7Env) [c7Case]
          (Runner.run_all c7Cfg (fun _ => c7Env) [c7Case] 0 emptyFs).2.1
          (Runner.run_all c7Cfg (fun _ => c7Env) [c7Case] 0 emptyFs).2.2).1.failed
        = 1 ∧
      (Runner.run_all c7Cfg (fun _ => c7Env) [c7Case]
          (Runner.run_all c7Cfg (fun _ => c7Env) [c7Case] 0 emptyFs).2.1
          (Runner.run_all c7Cfg (fun _ => c7Env) [c7Case] 0 emptyFs).2.2).1 ≠
        (Runner.run_all c7Cfg (fun _ => c7Env) [c7Case] 0 emptyFs).1 := by
  refine ⟨by decide, by decide, by decide, by decide⟩

theorem runCases_append (cfg : RunnerConfig) (env : BenchmarkCase → CaseEnv) :
    ∀ (cs₁ cs₂ : List BenchmarkCase) (calls : Nat) (fs : Fs),
    runCases cfg env (cs₁ ++ cs₂) calls fs =
      ((runCases cfg env cs₁ calls fs).1 ++
          (runCases cfg env cs₂ (runCases cfg env cs₁ calls fs).2.1
            (runCases cfg env cs₁ calls fs).2.2).1,
        (runCases cfg env cs₂ (runCases cfg env cs₁ calls fs).2.1
          (runCases cfg env cs₁ calls fs).2.2).2.1,
        (runCases cfg env cs₂ (runCases cfg env cs₁ calls fs).2.1
          (runCases cfg env cs₁ calls fs).2.2).2.2)
  | [], cs₂, calls, fs => rfl
  | c :: cs₁, cs₂, calls, fs => by
    simp only [List.cons_append, runCases, List.append_eq]
    rw [runCases_append cfg env cs₁ cs₂
      (Runner.run_case cfg (env c) c calls fs).2.1
      (Runner.run_case cfg (env c) c calls fs).2.2]

/-- C7 amended: the oracle-call counter (and the knowledge-base filesystem)
is initialized at Runner construction and persists across `run_all`
invocations on the same Runner: two consecutive `run_all` calls behave
exactly like a single `run_all` over the concatenated case list, with the
second call starting from the first call's accumulated counter and
filesystem — not from a fresh zero. -/
theorem C7_counter_persists_across_run_all (cfg : RunnerConfig)
    (env : BenchmarkCase → CaseEnv) (cs₁ cs₂ : List BenchmarkCase)
    (calls : Nat) (fs : Fs) :
    Runner.run_all cfg env (cs₁ ++ cs₂) calls fs =
      ({ total := (Runner.run_all cfg env cs₁ calls fs).1.total +
            (Runner.run_all cfg env cs₂
              (Runner.run_all cfg env cs₁ calls fs).2.1
              (Runner.run_all cfg env cs₁ calls fs).2.2).1.total
         passed := (Runner.run_all cfg env cs₁ calls fs).1.passed +
            (Runner.run_all cfg env cs₂
              (Runner.run_all cfg env cs₁ calls fs).2.1
              (Runner.run_all cfg env cs₁ calls fs).2.2).1.passed
         repaired := (Runner.run_all cfg env cs₁ calls fs).1.repaired +
            (Runner.run_all cfg env cs₂
              (Runner.run_all cfg env cs₁ calls fs).2.1
              (Runner.run_all cfg env cs₁ calls fs).2.2).1.repaired
         failed := (Runner.run_all cfg env cs₁ calls fs).1.failed +
            (Runner.run_all cfg env cs₂
              (Runner.run_all cfg env cs₁ calls fs).2.1
              (Runner.run_all cfg env cs₁ calls fs).2.2).1.failed
         results := (Runner.run_all cfg env cs₁ calls fs).1.results ++
            (Runner.run_all cfg env cs₂
              (Runner.run_all cfg env cs₁ calls fs).2.1
              (Runner.run_all cfg env cs₁ calls fs).2.2).1.results },
        (Runner.run_all cfg env cs₂
          (Runner.run_all cfg env cs₁ calls fs).2.1
          (Runner.run_all cfg env cs₁ calls fs).2.2).2.1,
        (Runner.run_all cfg env cs₂
          (Runner.run_all cfg env cs₁ calls fs).2.1
          (Runner.run_all cfg env cs₁ calls fs).2.2).2.2) := by
  unfold Runner.run_all
  rw [runCases_append cfg env cs₁ cs₂ calls fs]
  simp only [List.length_append, List.countP_append]
